import Mathlib

/-!
Verification development for the college result portal.

The repository snapshot contains the React client (`src/frontend/src/App.js`)
and the product requirements document; the FastAPI backend (grade evaluator,
record store, Excel ingestion, auth gate) is described by the specification
but its source is not part of the snapshot, so those components are modelled
from the specification text.  Client-side logic (ProtectedRoute, the 401
handler) is translated directly from `App.js`.
-/

namespace CollegeResultPortal

/-- One subject's grade entry within a student's result record
(spec section 3, SubjectGrade). -/
structure SubjectGrade where
  code : String
  semester : String
  grade : String
deriving Repr, DecidableEq

/-- Modelled from the spec: the persisted student result document, identified
by `rollNo`, with `dob` doubling as a lookup credential (spec section 3,
ResultRecord). -/
structure ResultRecord where
  rollNo : String
  name : String
  dob : String
  course : String
  subjects : List SubjectGrade
deriving Repr, DecidableEq

/-- The record store: one collection of ResultRecord documents. -/
abbrev Store := List ResultRecord

/-- Modelled from the spec: the backend grade evaluator (its FastAPI source is
absent from the snapshot; the PRD and spec section 4.3 fix its behaviour).
Pass set is O, A+, A, B+, B, C with case-sensitive exact match; everything
else, including the empty string, is Fail. -/
def evaluate (grade : String) : String :=
  if grade == "O" || grade == "A+" || grade == "A" ||
     grade == "B+" || grade == "B" || grade == "C" then "Pass" else "Fail"

/-- Modelled from the spec: record lookup requiring exact match on both
`rollNo` and `dob` (spec section 4.4). -/
def find (rollNo dob : String) (s : Store) : Option ResultRecord :=
  s.find? (fun r => r.rollNo == rollNo && r.dob == dob)

/-- The domain-level not-found message rendered by the student page. -/
def notFoundMessage : String := "No result found. Please check your Roll Number and Date of Birth."

/-- Response of the student result endpoint: either the record's data with
per-subject status, or a domain-level message (never an exception). -/
inductive StudentResultResponse where
  | found (name rollNo course : String)
      (results : List (String × String × String × String))
  | notFound (message : String)
deriving Repr, DecidableEq

/-- Modelled from the spec: the student result endpoint looks the record up
and, on a match, passes each subject through the grade evaluator; on no match
it returns a message in a successful response (spec sections 4.4 and 6). -/
def studentResult (rollNo dob : String) (s : Store) : StudentResultResponse :=
  match find rollNo dob s with
  | some r =>
      .found r.name r.rollNo r.course
        (r.subjects.map (fun sg => (sg.semester, sg.code, sg.grade, evaluate sg.grade)))
  | none => .notFound notFoundMessage

/-- Modelled from the spec: saving has upsert semantics keyed by `rollNo`
(spec section 3, lifecycle): an existing record with the same roll number is
overwritten, otherwise the record is appended. -/
def saveRecord (r : ResultRecord) (s : Store) : Store :=
  if s.any (fun old => old.rollNo == r.rollNo) then
    s.map (fun old => if old.rollNo == r.rollNo then r else old)
  else s ++ [r]

/-- A spreadsheet row, as the ordered list of its cell texts; absent cells
read as the empty string (openpyxl yields None for them). -/
abbrev Row := List String

/-- The text of the i-th cell of a row; out-of-range cells are blank. -/
def cell (row : Row) (i : Nat) : String := row.getD i ""

/-- The i-th subject slot of a row, at the fixed column offsets behind the
four scalar columns (spec section 4.2). -/
def slot (row : Row) (i : Nat) : SubjectGrade :=
  ⟨cell row (4 + 3 * i), cell row (5 + 3 * i), cell row (6 + 3 * i)⟩

/-- Maximum number of subject slots per row (spec section 4.2). -/
def maxSubjects : Nat := 25

/-- Modelled from the spec: subject slots are consumed left to right starting
at slot `i`, stopping at the first slot whose subject code is blank; `fuel`
bounds the scan at the remaining slots. -/
def collectSubjects (row : Row) (i : Nat) : Nat → List SubjectGrade
  | 0 => []
  | fuel + 1 =>
      if cell row (4 + 3 * i) == "" then []
      else slot row i :: collectSubjects row (i + 1) fuel

/-- Modelled from the spec: parse one spreadsheet row into a ResultRecord.
Columns follow the fixed layout rollNo, name, dob, course, then repeated
subject triples; a row with any blank required scalar field is invalid, as is
a row yielding no subjects (a record must have at least one SubjectGrade). -/
def parseRow (row : Row) : Option ResultRecord :=
  if cell row 0 == "" || cell row 1 == "" || cell row 2 == "" || cell row 3 == "" then
    none
  else if (collectSubjects row 0 maxSubjects).isEmpty then
    none
  else
    some ⟨cell row 0, cell row 1, cell row 2, cell row 3, collectSubjects row 0 maxSubjects⟩

/-- Outcome of an ingestion: the updated store, the number of imported rows
and the number of reported row errors. -/
structure IngestOutcome where
  store : Store
  imported : Nat
  errors : Nat
deriving Repr, DecidableEq

/-- Modelled from the spec: ingestion processes every row in order, upserting
each valid row into the store and counting each invalid row as a reported
error without aborting the batch (spec section 4.2). -/
def ingest (rows : List Row) (s : Store) : IngestOutcome :=
  match rows with
  | [] => ⟨s, 0, 0⟩
  | row :: rest =>
    match parseRow row with
    | some r =>
        let out := ingest rest (saveRecord r s)
        ⟨out.store, out.imported + 1, out.errors⟩
    | none =>
        let out := ingest rest s
        ⟨out.store, out.imported, out.errors + 1⟩

/-- Static configuration of the auth gate: the single admin identity, the
token signing secret and lifetimes, and whether the one-time-code provider is
configured (spec sections 4.1 and 6). -/
structure AuthConfig where
  adminUser : String
  adminPass : String
  otpConfigured : Bool
  secret : String
  tokenLifetime : Nat
  otpLifetime : Nat
deriving Repr, DecidableEq

/-- A signed, time-limited bearer token: its signature is valid when it
carries the shared secret, and it expires at `expiry`. -/
structure Token where
  sig : String
  expiry : Nat
deriving Repr, DecidableEq

/-- Modelled from the spec: token issuance signs with the shared secret and
stamps an expiry relative to the current time. -/
def mkToken (cfg : AuthConfig) (now : Nat) : Token :=
  ⟨cfg.secret, now + cfg.tokenLifetime⟩

/-- Modelled from the spec: the API layer's token check on every admin-scoped
request: the token must be present, carry the shared secret, and be
unexpired. -/
def checkToken (cfg : AuthConfig) (now : Nat) (tok : Option Token) : Bool :=
  match tok with
  | none => false
  | some t => t.sig == cfg.secret && now < t.expiry

/-- A pending one-time-code session: session id, expected code, expiry
(spec section 9, design note on OTP-pending sessions). -/
structure OtpSession where
  sessionId : String
  code : String
  expiry : Nat
deriving Repr, DecidableEq

/-- Result of a login attempt. -/
inductive LoginResult where
  | token (t : Token)
  | otpPending (sessionId : String)
  | authFailure
deriving Repr, DecidableEq

/-- Modelled from the spec: login validates the single configured admin
identity; with the provider configured it creates a pending session under a
generated session id and returns that id, otherwise it returns a signed token
directly; wrong credentials create no token and no session
(spec section 4.1). -/
def login (cfg : AuthConfig) (username password : String) (now : Nat)
    (freshSid freshCode : String) (sessions : List OtpSession) :
    LoginResult × List OtpSession :=
  if username == cfg.adminUser && password == cfg.adminPass then
    if cfg.otpConfigured then
      (.otpPending freshSid, ⟨freshSid, freshCode, now + cfg.otpLifetime⟩ :: sessions)
    else
      (.token (mkToken cfg now), sessions)
  else
    (.authFailure, sessions)

/-- Result of a one-time-code verification. -/
inductive VerifyResult where
  | token (t : Token)
  | verificationFailure
deriving Repr, DecidableEq

/-- Modelled from the spec: verification looks the pending session up by its
id and issues a token only when the code matches and the session is
unexpired; an unknown session, a wrong code or an expired entry is a
verification failure (spec sections 4.1 and 9). -/
def verifyOtp (cfg : AuthConfig) (sessionId code : String) (now : Nat)
    (sessions : List OtpSession) : VerifyResult :=
  match sessions.find? (fun s => s.sessionId == sessionId) with
  | none => .verificationFailure
  | some s =>
      if s.code == code && now < s.expiry then .token (mkToken cfg now)
      else .verificationFailure

/-- Response of an admin-scoped endpoint: the successful value, or an
authorization failure that produces no store change. -/
inductive AdminResponse (α : Type) where
  | ok (value : α)
  | authorizationFailure
deriving Repr, DecidableEq

/-- Modelled from the spec: the save endpoint checks the bearer token before
upserting the record (spec sections 4.5 and 6). -/
def adminSave (cfg : AuthConfig) (now : Nat) (tok : Option Token)
    (r : ResultRecord) (s : Store) : AdminResponse Store :=
  if checkToken cfg now tok then .ok (saveRecord r s) else .authorizationFailure

/-- Modelled from the spec: the upload endpoint checks the bearer token before
ingesting the file (spec sections 4.5 and 6). -/
def adminUpload (cfg : AuthConfig) (now : Nat) (tok : Option Token)
    (rows : List Row) (s : Store) : AdminResponse IngestOutcome :=
  if checkToken cfg now tok then .ok (ingest rows s) else .authorizationFailure

/-- The client-side token read: `getToken` returns whatever localStorage holds
under the key adminToken (App.js line 14). -/
def getToken (localStorageAdminToken : Option String) : Option String :=
  localStorageAdminToken

/-- JavaScript truthiness of the stored token: null and the empty string are
falsy, every other string is truthy. -/
def tokenTruthy (tok : Option String) : Bool :=
  match tok with
  | none => false
  | some t => !(t == "")

/-- ProtectedRoute from App.js lines 246 to 252: when the stored token is
falsy it redirects to the login page (result false), otherwise it renders the
admin dashboard children (result true). -/
def ProtectedRoute (localStorageAdminToken : Option String) : Bool :=
  if !(tokenTruthy (getToken localStorageAdminToken)) then false else true

/-- The client's session-relevant state: the stored token and the current
route. -/
structure ClientState where
  adminToken : Option String
  route : String
deriving Repr, DecidableEq

/-- The error branch of handleSubmit and handleFileUpload in App.js lines 311
to 318 and 346 to 353: a 401 response clears the stored token and navigates
to the login page; any other error leaves token and route alone. -/
def handleSubmitError (st : ClientState) (status : Nat) : ClientState :=
  if status == 401 then ⟨none, "/login"⟩ else st

/-- The result handler of handleSearch in App.js lines 555 to 574: a response
carrying a message is rendered as an inline error message, a record response
is rendered as the result view. -/
inductive SearchView where
  | errorMessage (msg : String)
  | resultView (name rollNo course : String)
      (results : List (String × String × String × String))
deriving Repr, DecidableEq

/-- handleSearch renders the domain-level not-found message as a user
message, never as an exception state (App.js lines 562 to 568). -/
def renderSearch (resp : StudentResultResponse) : SearchView :=
  match resp with
  | .notFound msg => .errorMessage msg
  | .found name rollNo course results => .resultView name rollNo course results

/-- Roll numbers are unique across the store (spec section 3, invariants). -/
def uniqueRollNos (s : Store) : Prop := (s.map (fun r => r.rollNo)).Nodup

/-- The store invariant: unique roll numbers, and every stored record has at
least one SubjectGrade (spec section 3, invariants). -/
def storeInv (s : Store) : Prop :=
  uniqueRollNos s ∧ ∀ r ∈ s, r.subjects ≠ []

/-- Number of records in the store carrying the given roll number. -/
def countRoll (s : Store) (n : String) : Nat :=
  s.countP (fun r => r.rollNo == n)

/-- The first `maxSubjects` subject slots of a row, in column order. -/
def slotSeq (row : Row) : List SubjectGrade :=
  (List.range maxSubjects).map (slot row)

/-- The subjects of a row as the specification words them: the prefixed run of
slots whose subject code is non-blank, capped at `maxSubjects` slots. -/
def specSubjects (row : Row) : List SubjectGrade :=
  (slotSeq row).takeWhile (fun sg => !(sg.code == ""))

/-- Sample subject entry used to evaluate the theorems on concrete data. -/
def demoSubject : SubjectGrade := ⟨"CS101", "1", "A+"⟩

/-- Sample record with roll number R1. -/
def demoRecordA : ResultRecord :=
  ⟨"R1", "Alice", "2001-02-03", "B.E. Computer Science Engineering", [demoSubject]⟩

/-- Second sample record with the same roll number R1 but different subjects. -/
def demoRecordB : ResultRecord :=
  ⟨"R1", "Alice", "2001-02-03", "B.E. Computer Science Engineering", [⟨"CS102", "2", "F"⟩]⟩

/-- Sample record with an unrelated roll number R2. -/
def demoOther : ResultRecord :=
  ⟨"R2", "Bob", "2000-05-06", "B.E. Civil Engineering", [⟨"CE101", "1", "B"⟩]⟩

/-- Sample valid spreadsheet row. -/
def demoRow : Row :=
  ["R3", "Cara", "1999-07-08", "B.Tech Information Technology", "IT101", "1", "O"]

/-- Sample invalid spreadsheet row: the required rollNo cell is blank. -/
def badRow : Row :=
  ["", "Dan", "1999-07-08", "B.Tech Information Technology", "IT101", "1", "O"]

/-- Sample auth configuration with the one-time-code provider configured. -/
def demoCfg : AuthConfig := ⟨"admin", "12345", true, "secret", 60, 300⟩

/-- Sample auth configuration with the one-time-code provider unconfigured. -/
def demoCfgNoOtp : AuthConfig := ⟨"admin", "12345", false, "secret", 60, 300⟩

end CollegeResultPortal

namespace CollegeResultPortal

/-- A record is always a member of the store produced by saving it. -/
theorem mem_saveRecord_self (r : ResultRecord) (s : Store) : r ∈ saveRecord r s := by
  unfold saveRecord
  split
  case isTrue h =>
    rcases List.any_eq_true.mp h with ⟨old, hold, hbeq⟩
    exact List.mem_map.mpr ⟨old, hold, by simp [hbeq]⟩
  case isFalse _ => simp

/-- After saving `r`, every stored record carrying r's roll number is `r`. -/
theorem eq_of_mem_saveRecord {x r : ResultRecord} {s : Store}
    (hx : x ∈ saveRecord r s) (hroll : x.rollNo = r.rollNo) : x = r := by
  unfold saveRecord at hx
  split at hx
  case isTrue _ =>
    rcases List.mem_map.mp hx with ⟨old, hold, heq⟩
    by_cases hb : old.rollNo == r.rollNo
    · rw [if_pos hb] at heq
      exact heq.symm
    · rw [if_neg hb] at heq
      subst heq
      exact absurd hroll (by simpa using hb)
  case isFalse h =>
    rcases List.mem_append.mp hx with hxs | hxr
    · exact absurd (List.any_eq_true.mpr ⟨x, hxs, by simp [hroll]⟩) h
    · simpa using hxr

/-- Saving leaves records with other roll numbers in the store. -/
theorem mem_saveRecord_of_ne {x : ResultRecord} (r : ResultRecord) {s : Store}
    (hx : x ∈ s) (hne : x.rollNo ≠ r.rollNo) : x ∈ saveRecord r s := by
  unfold saveRecord
  split
  · exact List.mem_map.mpr ⟨x, hx, by simp [hne]⟩
  · exact List.mem_append_left _ hx

/-- Every member of a store after a save is the saved record or an untouched
record with a different roll number. -/
theorem mem_saveRecord_elim {x r : ResultRecord} {s : Store}
    (hx : x ∈ saveRecord r s) : x = r ∨ (x ∈ s ∧ x.rollNo ≠ r.rollNo) := by
  unfold saveRecord at hx
  split at hx
  case isTrue _ =>
    rcases List.mem_map.mp hx with ⟨old, hold, heq⟩
    by_cases hb : old.rollNo == r.rollNo
    · rw [if_pos hb] at heq
      exact Or.inl heq.symm
    · rw [if_neg hb] at heq
      subst heq
      exact Or.inr ⟨hold, by simpa using hb⟩
  case isFalse h =>
    rcases List.mem_append.mp hx with hxs | hxr
    · exact Or.inr ⟨hxs, fun hcon => h (List.any_eq_true.mpr ⟨x, hxs, by simp [hcon]⟩)⟩
    · exact Or.inl (by simpa using hxr)

/-- The multiset of roll numbers after a save: unchanged on overwrite, the
new roll number appended on insert. -/
theorem rollNos_saveRecord (r : ResultRecord) (s : Store) :
    (saveRecord r s).map (fun x => x.rollNo) =
      if s.any (fun old => old.rollNo == r.rollNo) then s.map (fun x => x.rollNo)
      else s.map (fun x => x.rollNo) ++ [r.rollNo] := by
  unfold saveRecord
  split
  case isTrue h =>
    rw [List.map_map]
    apply List.map_congr_left
    intro old _
    by_cases hb : old.rollNo == r.rollNo
    · simp only [Function.comp_apply, if_pos hb]
      exact (beq_iff_eq.mp hb).symm
    · simp only [Function.comp_apply, if_neg hb]
  case isFalse h =>
    rw [List.map_append, List.map_singleton]

/-- Saving preserves roll-number uniqueness. -/
theorem uniqueRollNos_saveRecord (r : ResultRecord) (s : Store)
    (hu : uniqueRollNos s) : uniqueRollNos (saveRecord r s) := by
  unfold uniqueRollNos at *
  rw [rollNos_saveRecord]
  split
  · exact hu
  case isFalse h =>
    refine List.Nodup.append hu (List.nodup_singleton _) ?_
    intro x hx hx2
    rcases List.mem_singleton.mp hx2 with rfl
    rcases List.mem_map.mp hx with ⟨old, hold, holdeq⟩
    exact h (List.any_eq_true.mpr ⟨old, hold, by simp [holdeq]⟩)

/-- Saving does not change the number of records under a different roll
number. -/
theorem countRoll_saveRecord_ne (r : ResultRecord) (s : Store) {n : String}
    (hne : r.rollNo ≠ n) : countRoll (saveRecord r s) n = countRoll s n := by
  unfold countRoll saveRecord
  split
  case isTrue _ =>
    rw [List.countP_map]
    apply List.countP_congr
    intro old _
    by_cases hb : old.rollNo == r.rollNo
    · simp only [Function.comp_apply, if_pos hb]
      rw [beq_iff_eq.mp hb]
    · simp only [Function.comp_apply, if_neg hb]
  case isFalse _ =>
    rw [List.countP_append]
    simp [hne]

/-- In a store with unique roll numbers, a member's roll number counts
exactly one record. -/
theorem countRoll_eq_one_of_mem {s : Store} {r : ResultRecord}
    (hu : uniqueRollNos s) (hr : r ∈ s) : countRoll s r.rollNo = 1 := by
  induction s with
  | nil => cases hr
  | cons x xs ih =>
    unfold uniqueRollNos at hu
    rw [List.map_cons, List.nodup_cons] at hu
    rcases List.mem_cons.mp hr with rfl | hmem
    · unfold countRoll
      rw [List.countP_cons_of_pos _ _ (by simp)]
      have hz : xs.countP (fun x => x.rollNo == r.rollNo) = 0 := by
        rw [List.countP_eq_zero]
        intro y hy hyeq
        exact hu.1 ((beq_iff_eq.mp hyeq) ▸ List.mem_map_of_mem _ hy)
      rw [hz]
    · unfold countRoll at ih ⊢
      rw [List.countP_cons_of_neg]
      · exact ih hu.2 hmem
      · simp only [beq_iff_eq]
        intro heq
        exact hu.1 (heq ▸ List.mem_map_of_mem _ hmem)

/-- If a predicate holds on a member and every satisfying member is that
element, linear search finds exactly it. -/
theorem find?_eq_some_of_unique {α : Type} {p : α → Bool} {a : α} :
    ∀ {l : List α}, a ∈ l → p a = true → (∀ x ∈ l, p x = true → x = a) →
      l.find? p = some a := by
  intro l
  induction l with
  | nil => intro h _ _; cases h
  | cons b l ih =>
    intro hmem hp huniq
    by_cases hb : p b
    · rw [List.find?_cons_of_pos _ hb, huniq b (List.mem_cons_self b l) hb]
    · rw [List.find?_cons_of_neg _ hb]
      refine ih ?_ hp (fun x hx => huniq x (List.mem_cons_of_mem _ hx))
      rcases List.mem_cons.mp hmem with rfl | h
      · exact absurd hp hb
      · exact h

/-- A successfully parsed row determines the record completely: the four
scalar cells and the collected subject slots, and the subject list is
non-empty. -/
theorem parseRow_eq_some {row : Row} {r : ResultRecord} (h : parseRow row = some r) :
    r = ⟨cell row 0, cell row 1, cell row 2, cell row 3,
          collectSubjects row 0 maxSubjects⟩ ∧
    r.subjects ≠ [] := by
  unfold parseRow at h
  split at h
  · exact Option.noConfusion h
  · split at h
    case isTrue _ => exact Option.noConfusion h
    case isFalse hne =>
      injection h with h
      refine ⟨h.symm, ?_⟩
      rw [← h]
      intro hcon
      have hcon2 : collectSubjects row 0 maxSubjects = [] := hcon
      rw [hcon2] at hne
      exact hne rfl

/-- The slot scan is the longest non-blank-code run of the remaining slots. -/
theorem collectSubjects_eq_takeWhile (row : Row) :
    ∀ (fuel i : Nat),
      collectSubjects row i fuel =
        ((List.range fuel).map (fun j => slot row (i + j))).takeWhile
          (fun sg => !(sg.code == ""))
  | 0, _ => rfl
  | fuel + 1, i => by
      rw [List.range_succ_eq_map, List.map_cons, List.map_map]
      have hmaps :
          List.map ((fun j => slot row (i + j)) ∘ Nat.succ) (List.range fuel) =
            List.map (fun j => slot row (i + 1 + j)) (List.range fuel) := by
        apply List.map_congr_left
        intro j _
        simp only [Function.comp_apply]
        congr 1
        omega
      rw [hmaps]
      by_cases hc : cell row (4 + 3 * i) == ""
      · simp [collectSubjects, List.takeWhile_cons, slot, hc]
      · simp [collectSubjects, List.takeWhile_cons, slot, hc,
          collectSubjects_eq_takeWhile row fuel (i + 1)]

/-- The number of imported rows equals the number of parseable rows,
independently of the initial store. -/
theorem ingest_imported_eq (rows : List Row) :
    ∀ s : Store,
      (ingest rows s).imported = rows.countP (fun row => (parseRow row).isSome) := by
  induction rows with
  | nil => intro s; simp [ingest]
  | cons row rest ih =>
    intro s
    cases hp : parseRow row with
    | some r => simp [ingest, hp, ih, List.countP_cons]
    | none => simp [ingest, hp, ih, List.countP_cons]

/-- The number of reported errors equals the number of unparseable rows,
independently of the initial store. -/
theorem ingest_errors_eq (rows : List Row) :
    ∀ s : Store,
      (ingest rows s).errors = rows.countP (fun row => (parseRow row).isNone) := by
  induction rows with
  | nil => intro s; simp [ingest]
  | cons row rest ih =>
    intro s
    cases hp : parseRow row with
    | some r => simp [ingest, hp, ih, List.countP_cons]
    | none => simp [ingest, hp, ih, List.countP_cons]

/-- Every row is either imported or reported: the two counters sum to the
number of rows. -/
theorem ingest_imported_add_errors (rows : List Row) :
    ∀ s : Store,
      (ingest rows s).imported + (ingest rows s).errors = rows.length := by
  induction rows with
  | nil => intro s; simp [ingest]
  | cons row rest ih =>
    intro s
    cases hp : parseRow row with
    | some r =>
        have := ih (saveRecord r s)
        simp only [ingest, hp, List.length_cons]
        omega
    | none =>
        have := ih s
        simp only [ingest, hp, List.length_cons]
        omega

/-- Saving a record with a non-empty subject list preserves the store
invariant. -/
theorem storeInv_saveRecord {s : Store} {r : ResultRecord}
    (hinv : storeInv s) (hr : r.subjects ≠ []) : storeInv (saveRecord r s) := by
  refine ⟨uniqueRollNos_saveRecord r s hinv.1, ?_⟩
  intro x hx
  rcases mem_saveRecord_elim hx with rfl | ⟨hxs, -⟩
  · exact hr
  · exact hinv.2 x hxs

/-- Ingestion preserves the store invariant. -/
theorem storeInv_ingest (rows : List Row) :
    ∀ s : Store, storeInv s → storeInv (ingest rows s).store := by
  induction rows with
  | nil => intro s h; exact h
  | cons row rest ih =>
    intro s h
    cases hp : parseRow row with
    | none => simpa [ingest, hp] using ih s h
    | some pr =>
        have hsub : pr.subjects ≠ [] := (parseRow_eq_some hp).2
        simpa [ingest, hp] using ih (saveRecord pr s) (storeInv_saveRecord h hsub)

end CollegeResultPortal

namespace CollegeResultPortal

/-- Claim C1: `evaluate` returns Pass exactly on the six recognised grades O,
A+, A, B+, B, C (case-sensitive, untrimmed); every other string, the empty
string included, yields Fail, and the function is total with codomain
restricted to Pass and Fail. -/
theorem C1_evaluate_pass_iff (g : String) :
    (evaluate g = "Pass" ↔
      (g = "O" ∨ g = "A+" ∨ g = "A" ∨ g = "B+" ∨ g = "B" ∨ g = "C")) ∧
    (evaluate g = "Pass" ∨ evaluate g = "Fail") := by
  unfold evaluate
  split
  case isTrue h =>
    simp only [Bool.or_eq_true, beq_iff_eq] at h
    exact ⟨iff_of_true rfl (by tauto), Or.inl rfl⟩
  case isFalse h =>
    simp only [Bool.or_eq_true, beq_iff_eq] at h
    push_neg at h
    refine ⟨iff_of_false (by simp) ?_, Or.inr rfl⟩
    tauto

end CollegeResultPortal

namespace CollegeResultPortal

/-- Claim C2: `find` returns a record only when some stored record matches
both rollNo and dob exactly; with no store record matching both (a correct
rollNo with a wrong dob included) the lookup is empty and the student
endpoint answers with the domain-level not-found message in a successful
response, which the client renders as a user message. -/
theorem C2_find_exact_match (rollNo dob : String) (s : Store) :
    (∀ r, find rollNo dob s = some r → r ∈ s ∧ r.rollNo = rollNo ∧ r.dob = dob) ∧
    ((∀ r ∈ s, ¬(r.rollNo = rollNo ∧ r.dob = dob)) →
      find rollNo dob s = none ∧
      studentResult rollNo dob s = .notFound notFoundMessage) ∧
    (∀ msg, renderSearch (.notFound msg) = .errorMessage msg) := by
  refine ⟨?_, ?_, fun msg => rfl⟩
  · intro r h
    unfold find at h
    have hm := List.mem_of_find?_eq_some h
    have hp := List.find?_some h
    simp only [Bool.and_eq_true, beq_iff_eq] at hp
    exact ⟨hm, hp.1, hp.2⟩
  · intro hnone
    have hfind : find rollNo dob s = none := by
      unfold find
      rw [List.find?_eq_none]
      intro x hx
      simp only [Bool.and_eq_true, beq_iff_eq]
      exact hnone x hx
    refine ⟨hfind, ?_⟩
    unfold studentResult
    rw [hfind]

/-- Claim C2 witness: the stored roll number R1 with a wrong date of birth
returns the not-found message, not the record. -/
theorem C2_find_exact_match_witness :
    find "R1" "1999-12-31" [demoRecordA] = none ∧
    studentResult "R1" "1999-12-31" [demoRecordA] = .notFound notFoundMessage :=
  (C2_find_exact_match "R1" "1999-12-31" [demoRecordA]).2.1 (by decide)

/-- Claim C3: saving is an upsert keyed by rollNo: after saving two records
with the same roll number into a store with unique roll numbers, exactly one
record with that roll number remains, lookup with the matching dob returns
the most recently saved record, the earlier record has left no trace, and
ingesting a valid row performs exactly the same upsert. -/
theorem C3_upsert_semantics (s : Store) (r0 r1 : ResultRecord)
    (hu : uniqueRollNos s) (hroll : r0.rollNo = r1.rollNo) :
    countRoll (saveRecord r1 (saveRecord r0 s)) r1.rollNo = 1 ∧
    find r1.rollNo r1.dob (saveRecord r1 (saveRecord r0 s)) = some r1 ∧
    (r0 ≠ r1 → r0 ∉ saveRecord r1 (saveRecord r0 s)) ∧
    (∀ row pr s0, parseRow row = some pr → (ingest [row] s0).store = saveRecord pr s0) := by
  have hu2 : uniqueRollNos (saveRecord r1 (saveRecord r0 s)) :=
    uniqueRollNos_saveRecord _ _ (uniqueRollNos_saveRecord r0 s hu)
  have hmem : r1 ∈ saveRecord r1 (saveRecord r0 s) := mem_saveRecord_self ..
  refine ⟨countRoll_eq_one_of_mem hu2 hmem, ?_, ?_, ?_⟩
  · unfold find
    apply find?_eq_some_of_unique hmem (by simp)
    intro x hx hpx
    simp only [Bool.and_eq_true, beq_iff_eq] at hpx
    exact eq_of_mem_saveRecord hx hpx.1
  · intro hne hmem0
    rcases mem_saveRecord_elim hmem0 with heq | ⟨-, hnr⟩
    · exact hne heq
    · exact hnr hroll
  · intro row pr s0 h
    simp [ingest, h]

/-- Claim C3 witness: saving two records with roll number R1 leaves one such
record and lookup returns the later one. -/
theorem C3_upsert_semantics_witness :
    countRoll (saveRecord demoRecordB (saveRecord demoRecordA [demoOther])) demoRecordB.rollNo = 1 ∧
    find demoRecordB.rollNo demoRecordB.dob
      (saveRecord demoRecordB (saveRecord demoRecordA [demoOther])) = some demoRecordB ∧
    demoRecordA ∉ saveRecord demoRecordB (saveRecord demoRecordA [demoOther]) := by
  have h := C3_upsert_semantics [demoOther] demoRecordA demoRecordB
    (by unfold uniqueRollNos; decide) (by decide)
  exact ⟨h.1, h.2.1, h.2.2.1 (by decide)⟩

/-- Claim C4: ingestion imports exactly the parseable rows and reports
exactly the unparseable ones: the two counters are the counts of valid and
invalid rows, they sum to the number of rows (no row aborts the batch), and
a row with any blank required scalar cell is skipped as invalid. -/
theorem C4_ingest_counts (rows : List Row) (s : Store) :
    (ingest rows s).imported = rows.countP (fun row => (parseRow row).isSome) ∧
    (ingest rows s).errors = rows.countP (fun row => (parseRow row).isNone) ∧
    (ingest rows s).imported + (ingest rows s).errors = rows.length ∧
    (∀ row : Row,
      (cell row 0 = "" ∨ cell row 1 = "" ∨ cell row 2 = "" ∨ cell row 3 = "") →
      parseRow row = none) := by
  refine ⟨ingest_imported_eq rows s, ingest_errors_eq rows s,
    ingest_imported_add_errors rows s, ?_⟩
  intro row hblank
  unfold parseRow
  rw [if_pos]
  rcases hblank with h | h | h | h <;> simp [h]

/-- Claim C4 witness: a file with one valid and one invalid row imports one
record and reports one error. -/
theorem C4_ingest_counts_witness :
    (ingest [demoRow, badRow] []).imported = 1 ∧
    (ingest [demoRow, badRow] []).errors = 1 ∧
    parseRow badRow = none := by
  have h := C4_ingest_counts [demoRow, badRow] []
  exact ⟨h.1.trans (by decide), h.2.1.trans (by decide), h.2.2.2 badRow (by decide)⟩

/-- Claim C5: ingestion never touches records whose roll number appears in no
row of the file, even when other rows fail to parse: such a record stays in
the store and the number of records under its roll number is unchanged. -/
theorem C5_ingest_frame (rows : List Row) (s : Store) (r : ResultRecord)
    (hmem : r ∈ s) (hfresh : ∀ row ∈ rows, cell row 0 ≠ r.rollNo) :
    r ∈ (ingest rows s).store ∧
    countRoll (ingest rows s).store r.rollNo = countRoll s r.rollNo := by
  induction rows generalizing s with
  | nil => exact ⟨hmem, rfl⟩
  | cons row rest ih =>
    have hfr : cell row 0 ≠ r.rollNo := hfresh row (List.mem_cons_self ..)
    have hrest : ∀ row' ∈ rest, cell row' 0 ≠ r.rollNo :=
      fun row' h' => hfresh row' (List.mem_cons_of_mem _ h')
    cases hp : parseRow row with
    | none =>
        have h := ih hmem hrest (s := s)
        exact ⟨by simpa [ingest, hp] using h.1, by simpa [ingest, hp] using h.2⟩
    | some pr =>
        have hpr : pr.rollNo = cell row 0 := by
          rcases parseRow_eq_some hp with ⟨rfl, -⟩
          rfl
        have hne : r.rollNo ≠ pr.rollNo :=
          fun hcon => hfr (hpr.symm.trans hcon.symm)
        have hmem' : r ∈ saveRecord pr s := mem_saveRecord_of_ne pr hmem hne
        have hcount : countRoll (saveRecord pr s) r.rollNo = countRoll s r.rollNo :=
          countRoll_saveRecord_ne pr s (fun hcon => hne hcon.symm)
        have h := ih hmem' hrest (s := saveRecord pr s)
        refine ⟨by simpa [ingest, hp] using h.1, ?_⟩
        have hstore : (ingest (row :: rest) s).store = (ingest rest (saveRecord pr s)).store := by
          simp [ingest, hp]
        rw [hstore, h.2, hcount]

/-- Claim C5 witness: a record with roll number R1 survives, with the same
multiplicity, the ingestion of a file naming only roll number R3. -/
theorem C5_ingest_frame_witness :
    demoRecordA ∈ (ingest [demoRow, badRow] [demoRecordA]).store ∧
    countRoll (ingest [demoRow, badRow] [demoRecordA]).store demoRecordA.rollNo =
      countRoll [demoRecordA] demoRecordA.rollNo :=
  C5_ingest_frame [demoRow, badRow] [demoRecordA] demoRecordA (by decide) (by decide)

/-- Claim C6: a parsed row reads its four scalar fields from the fixed
columns rollNo, name, dob, course, and its subjects are exactly the prefixed
run of subject slots with non-blank codes, capped at 25 slots. -/
theorem C6_row_layout (row : Row) (r : ResultRecord) (h : parseRow row = some r) :
    r.rollNo = cell row 0 ∧ r.name = cell row 1 ∧ r.dob = cell row 2 ∧
    r.course = cell row 3 ∧ r.subjects = specSubjects row ∧
    r.subjects.length ≤ maxSubjects := by
  rcases parseRow_eq_some h with ⟨rfl, -⟩
  refine ⟨rfl, rfl, rfl, rfl, ?_, ?_⟩
  · show collectSubjects row 0 maxSubjects = specSubjects row
    rw [collectSubjects_eq_takeWhile]
    unfold specSubjects slotSeq
    have hm : List.map (fun j => slot row (0 + j)) (List.range maxSubjects) =
        List.map (slot row) (List.range maxSubjects) := by
      apply List.map_congr_left
      intro j _
      rw [Nat.zero_add]
    rw [hm]
  · show (collectSubjects row 0 maxSubjects).length ≤ maxSubjects
    rw [collectSubjects_eq_takeWhile]
    refine le_trans (List.Sublist.length_le (List.takeWhile_sublist _)) ?_
    simp

/-- Claim C6 witness: the sample row parses into the record read off its
fixed columns, with its one non-blank subject slot. -/
theorem C6_row_layout_witness :
    (⟨"R3", "Cara", "1999-07-08", "B.Tech Information Technology",
      [⟨"IT101", "1", "O"⟩]⟩ : ResultRecord).subjects = specSubjects demoRow ∧
    (⟨"R3", "Cara", "1999-07-08", "B.Tech Information Technology",
      [⟨"IT101", "1", "O"⟩]⟩ : ResultRecord).rollNo = cell demoRow 0 := by
  have h := C6_row_layout demoRow
    ⟨"R3", "Cara", "1999-07-08", "B.Tech Information Technology",
      [⟨"IT101", "1", "O"⟩]⟩ (by decide)
  exact ⟨h.2.2.2.2.1, h.1⟩

end CollegeResultPortal

namespace CollegeResultPortal

/-- Claim C7: with the one-time-code provider unconfigured, a login with the
correct admin credentials returns a usable signed token directly and no
session; with the provider configured, it returns only a generated session id
together with a new pending session, a subsequent verification with the
correct code for that session returns a token, and a wrong or expired code
yields a verification failure and no token. -/
theorem C7_login_otp_flow (cfg : AuthConfig) (u p sid code wrongCode : String)
    (now now2 : Nat) (sessions : List OtpSession)
    (hu : u = cfg.adminUser) (hp : p = cfg.adminPass)
    (hlife : 0 < cfg.tokenLifetime) :
    (cfg.otpConfigured = false →
      login cfg u p now sid code sessions = (.token (mkToken cfg now), sessions) ∧
      checkToken cfg now (some (mkToken cfg now)) = true) ∧
    (cfg.otpConfigured = true →
      login cfg u p now sid code sessions =
        (.otpPending sid, ⟨sid, code, now + cfg.otpLifetime⟩ :: sessions) ∧
      (now2 < now + cfg.otpLifetime →
        verifyOtp cfg sid code now2 (⟨sid, code, now + cfg.otpLifetime⟩ :: sessions) =
          .token (mkToken cfg now2)) ∧
      (wrongCode ≠ code →
        verifyOtp cfg sid wrongCode now2 (⟨sid, code, now + cfg.otpLifetime⟩ :: sessions) =
          .verificationFailure) ∧
      (now + cfg.otpLifetime ≤ now2 →
        verifyOtp cfg sid code now2 (⟨sid, code, now + cfg.otpLifetime⟩ :: sessions) =
          .verificationFailure)) := by
  subst hu hp
  have hfind : List.find? (fun s => s.sessionId == sid)
      ((⟨sid, code, now + cfg.otpLifetime⟩ : OtpSession) :: sessions) =
      some ⟨sid, code, now + cfg.otpLifetime⟩ :=
    List.find?_cons_of_pos _ (by simp)
  constructor
  · intro hcfg
    refine ⟨by unfold login; simp [hcfg], ?_⟩
    unfold checkToken mkToken
    simp only [beq_self_eq_true, Bool.true_and]
    exact decide_eq_true (by omega)
  · intro hcfg
    refine ⟨by unfold login; simp [hcfg], ?_, ?_, ?_⟩
    · intro hlt
      unfold verifyOtp
      rw [hfind]
      simp [hlt]
    · intro hne
      unfold verifyOtp
      rw [hfind]
      have hcode : (code == wrongCode) = false := beq_eq_false_iff_ne.mpr (Ne.symm hne)
      simp [hcode]
    · intro hge
      unfold verifyOtp
      rw [hfind]
      have hlt : ¬(now2 < now + cfg.otpLifetime) := by omega
      simp [hlt]

/-- Claim C7 witness: with the provider configured, login yields session sid1
and verification succeeds with the right code and fails with a wrong one;
with the provider unconfigured, login yields a token directly. -/
theorem C7_login_otp_flow_witness :
    login demoCfg "admin" "12345" 0 "sid1" "123456" [] =
      (.otpPending "sid1", [⟨"sid1", "123456", 300⟩]) ∧
    verifyOtp demoCfg "sid1" "123456" 10 [⟨"sid1", "123456", 300⟩] =
      .token (mkToken demoCfg 10) ∧
    verifyOtp demoCfg "sid1" "999999" 10 [⟨"sid1", "123456", 300⟩] =
      .verificationFailure ∧
    login demoCfgNoOtp "admin" "12345" 0 "sid1" "123456" [] =
      (.token (mkToken demoCfgNoOtp 0), []) := by
  have h := (C7_login_otp_flow demoCfg "admin" "12345" "sid1" "123456" "999999"
    0 10 [] rfl rfl (by decide)).2 rfl
  have h0 := (C7_login_otp_flow demoCfgNoOtp "admin" "12345" "sid1" "123456" "999999"
    0 10 [] rfl rfl (by decide)).1 rfl
  exact ⟨h.1, h.2.1 (by decide), h.2.2.1 (by decide), h0.1⟩

/-- Claim C8: an admin-scoped call whose token fails the check (missing,
invalid or expired tokens all fail it) is rejected with an authorization
failure, so nothing is saved or ingested; and a login with wrong credentials
is an authentication failure that creates no token and no pending session. -/
theorem C8_admin_authorization (cfg : AuthConfig) (now : Nat) (tok : Option Token)
    (r : ResultRecord) (rows : List Row) (s : Store)
    (u p sid code : String) (sessions : List OtpSession)
    (hbad : checkToken cfg now tok = false)
    (hwrong : ¬(u = cfg.adminUser ∧ p = cfg.adminPass)) :
    adminSave cfg now tok r s = .authorizationFailure ∧
    adminUpload cfg now tok rows s = .authorizationFailure ∧
    checkToken cfg now none = false ∧
    (∀ t : Token, t.expiry ≤ now → checkToken cfg now (some t) = false) ∧
    login cfg u p now sid code sessions = (.authFailure, sessions) := by
  refine ⟨?_, ?_, rfl, ?_, ?_⟩
  · unfold adminSave
    simp [hbad]
  · unfold adminUpload
    simp [hbad]
  · intro t hexp
    unfold checkToken
    have hlt : ¬(now < t.expiry) := by omega
    simp [hlt]
  · unfold login
    have hcond : (u == cfg.adminUser && p == cfg.adminPass) = false := by
      by_contra hne
      simp only [Bool.not_eq_false, Bool.and_eq_true, beq_iff_eq] at hne
      exact hwrong hne
    simp [hcond]

/-- Claim C8 witness: a missing token is rejected on save and upload, an
expired token fails the check, and wrong credentials fail login without
creating a session. -/
theorem C8_admin_authorization_witness :
    adminSave demoCfg 50 none demoRecordA [] = .authorizationFailure ∧
    adminUpload demoCfg 50 none [demoRow] [] = .authorizationFailure ∧
    checkToken demoCfg 50 (some ⟨"secret", 40⟩) = false ∧
    login demoCfg "admin" "wrong" 50 "sid1" "123456" [] = (.authFailure, []) := by
  have h := C8_admin_authorization demoCfg 50 none demoRecordA [demoRow] []
    "admin" "wrong" "sid1" "123456" [] (by decide) (by decide)
  exact ⟨h.1, h.2.1, h.2.2.2.1 ⟨"secret", 40⟩ (by decide), h.2.2.2.2⟩

/-- Claim C9: the store invariant (unique roll numbers, every record has at
least one SubjectGrade) is preserved by save and by ingestion; lookups do not
modify the store by construction; no record is ever rejected for an
unrecognized grade value, which merely evaluates to Fail. -/
theorem C9_store_invariant (s : Store) (r : ResultRecord) (rows : List Row)
    (hinv : storeInv s) (hr : r.subjects ≠ []) :
    storeInv (saveRecord r s) ∧
    storeInv (ingest rows s).store ∧
    (∀ (r' : ResultRecord) (s' : Store), r' ∈ saveRecord r' s') ∧
    (∀ g, ¬(g = "O" ∨ g = "A+" ∨ g = "A" ∨ g = "B+" ∨ g = "B" ∨ g = "C") →
      evaluate g = "Fail") := by
  refine ⟨storeInv_saveRecord hinv hr, storeInv_ingest rows s hinv,
    fun r' s' => mem_saveRecord_self r' s', ?_⟩
  intro g hg
  unfold evaluate
  rw [if_neg]
  intro hc
  simp only [Bool.or_eq_true, beq_iff_eq] at hc
  exact hg (by tauto)

/-- Claim C9 witness: saving a record with an unrecognized grade F and
ingesting a file both leave the store invariant intact. -/
theorem C9_store_invariant_witness :
    storeInv (saveRecord demoRecordB [demoOther]) ∧
    storeInv (ingest [demoRow, badRow] [demoOther]).store ∧
    demoRecordB ∈ saveRecord demoRecordB [demoOther] ∧
    evaluate "RA" = "Fail" := by
  have h := C9_store_invariant [demoOther] demoRecordB [demoRow, badRow]
    (by constructor
        · unfold uniqueRollNos; decide
        · decide)
    (by decide)
  exact ⟨h.1, h.2.1, h.2.2.1 demoRecordB [demoOther], h.2.2.2 "RA" (by decide)⟩

/-- Claim C10: the client-side admin route guard renders the dashboard
exactly when a non-empty token string is stored under adminToken; it never
checks validity, so any non-empty garbage string passes; server-side 401
rejection is what clears the stored token and redirects to the login page,
while other errors leave the client session alone. -/
theorem C10_protected_route (tok : Option String) (st : ClientState) :
    (ProtectedRoute tok = true ↔ ∃ t, tok = some t ∧ t ≠ "") ∧
    (∀ g : String, g ≠ "" → ProtectedRoute (some g) = true) ∧
    handleSubmitError st 401 = ⟨none, "/login"⟩ ∧
    (∀ status, status ≠ 401 → handleSubmitError st status = st) := by
  refine ⟨?_, ?_, rfl, ?_⟩
  · unfold ProtectedRoute getToken tokenTruthy
    cases tok with
    | none => simp
    | some t =>
        by_cases ht : t = ""
        · subst ht
          simp
        · simp [ht]
  · intro g hg
    unfold ProtectedRoute getToken tokenTruthy
    simp [hg]
  · intro status hs
    unfold handleSubmitError
    simp [hs]

/-- Claim C10 witness: a stale garbage token passes the client gate, and a
401 on a protected call clears it and redirects to the login page. -/
theorem C10_protected_route_witness :
    ProtectedRoute (some "stale-garbage") = true ∧
    handleSubmitError ⟨some "stale-garbage", "/admin"⟩ 401 = ⟨none, "/login"⟩ ∧
    handleSubmitError ⟨some "stale-garbage", "/admin"⟩ 500 =
      ⟨some "stale-garbage", "/admin"⟩ := by
  have h := C10_protected_route (some "stale-garbage") ⟨some "stale-garbage", "/admin"⟩
  exact ⟨h.2.1 "stale-garbage" (by decide), h.2.2.1, h.2.2.2 500 (by decide)⟩

end CollegeResultPortal
